import Mathlib

/-!
Verification of the worker identity and membership subsystem of the
dc-federated coordinator (`src/dc_federated/backend/dcf_server.py`).

The Python class `DCFServer` keeps two registry collections:
`worker_list` (a Python list of worker-id strings, the "known" set,
insertion-ordered) and `active_workers` (a Python set of worker-id
strings).  The operations below are shallow embeddings of the methods of
`DCFServer` and `WorkerAuthenticator`: external inputs (the HTTP request
payload, the clock/hash used to mint open-mode identities, the outcome of
the nacl signature verification) are passed as explicit arguments, and
application callbacks are recorded as events rather than executed.
-/

/-- Byte strings are modelled as lists of byte values. -/
abbrev Bytes := List Nat

/-- Identifier of which application callback a server method invoked,
together with its argument.  `joined`/`left` are the
`register_worker_callback` / `unregister_worker_callback` of the Python
code; the other three are the relay callbacks. -/
inductive Event where
  | joined (id : String)
  | left (id : String)
  | acceptUpdate (id : String) (update : Bytes)
  | supplyStatus
  | supplyModel
  deriving Repr, DecidableEq

/-- The two authentication modes of `WorkerAuthenticator`: the constants
`NO_AUTHENTICATION` (open mode, no key list file) and `AUTHENTICATED`
(key-restricted mode) of `dc_federated.backend._constants`. -/
inductive AuthType where
  | noAuthentication
  | authenticated
  deriving Repr, DecidableEq

/-- A JSON value as far as the server inspects one: the code only ever
checks `isinstance(v, str)`, `isinstance(v, bool)` and compares with
`== True`. -/
inductive JsonVal where
  | str (s : String)
  | bool (b : Bool)
  | num (n : Int)
  | null
  deriving Repr, DecidableEq

/-- Python `v == True` for a JSON value: `True == True` and (by Python
numeric equality) `1 == True`. -/
def jsonEqTrue : JsonVal → Bool
  | .bool b => b
  | .num n => n == 1
  | _ => false

/-- The registry state of `DCFServer`: `worker_list` is the Python list
(insertion order kept, appended with `.append`, first occurrence removed
with `.remove`), `active_workers` the Python set (modelled as a
duplicate-free list: insertion deduplicates, removal drops every
occurrence). -/
structure ServerState where
  worker_list : List String
  active_workers : List String
  deriving Repr, DecidableEq

/-- The registry at process start: both collections empty. -/
def emptyState : ServerState := ⟨[], []⟩

/-- Python `set.add`: insert unless already present. -/
def setAdd (x : String) (l : List String) : List String :=
  if x ∈ l then l else x :: l

/-- Python `set.remove` (under the set discipline): drop the element. -/
def setRemove (x : String) (l : List String) : List String :=
  l.filter (fun y => y ≠ x)

/-- `DCFServer.is_admin`: the two environment-sourced admin credentials
(`ADMIN_USERNAME`, `ADMIN_PASSWORD`, `None` when unset) are compared with
the supplied pair; if either is unset the gate denies. -/
def is_admin (adm_username adm_password : Option String)
    (username password : String) : Bool :=
  match adm_username, adm_password with
  | some au, some ap => username == au && password == ap
  | _, _ => false

/-- Outcome of the external nacl `VerifyKey.verify` call on the stored key
and the presented signed message: success, a `BadSignatureError`, or any
other exception (e.g. `binascii.Error` when the signed message is not
valid hex) carrying its textual description. -/
inductive VerifyOutcome where
  | ok
  | badSignature
  | raises (e : String)
  deriving Repr, DecidableEq

/-- `WorkerAuthenticator.authenticate_worker`.  `auth` is the
`self.authenticate` flag (false iff no key list file was given), `keys`
the loaded key list, `verify` the behaviour of the nacl verification for
the stored key of each listed public key.  The `try` block covers the
membership test and the verify call but the `except` clause catches only
`BadSignatureError`; any other exception escapes (`Except.error`). -/
def authenticate_worker (auth : Bool) (keys : List String)
    (verify : String → String → VerifyOutcome)
    (public_key_str signed_message : String) :
    Except String (Bool × AuthType) :=
  if auth = false then
    .ok (true, .noAuthentication)
  else if public_key_str ∉ keys then
    .ok (false, .authenticated)
  else
    match verify public_key_str signed_message with
    | .badSignature => .ok (false, .authenticated)
    | .raises e => .error e
    | .ok => .ok (true, .authenticated)

/-- Result of `DCFServer.register_worker`: the sentinel `INVALID_WORKER`
or the worker id. -/
inductive RegisterResult where
  | invalidWorker
  | workerId (id : String)
  deriving Repr, DecidableEq

/-- The open-mode minted identity:
`hashlib.sha224(str(time.time()).encode()).hexdigest() + '_unauthenticated'`.
The digest of the clock reading is an external input. -/
def mintedId (digest : String) : String := digest ++ "_unauthenticated"

/-- `DCFServer.register_worker`.  The authentication outcome
(`auth_success`, `auth_type`) and the minted digest are external inputs;
`public_key` is `worker_data[PUBLIC_KEY_STR]`.  On failure returns
`INVALID_WORKER` without touching the registry; in open mode mints an id,
appends it to `worker_list` if absent, activates it and fires the
registered callback; in key-restricted mode the id must already be in
`worker_list`, else `INVALID_WORKER`. -/
def register_worker (auth_success : Bool) (auth_type : AuthType)
    (digest public_key : String) (s : ServerState) :
    RegisterResult × List Event × ServerState :=
  if auth_success = false then
    (.invalidWorker, [], s)
  else
    match auth_type with
    | .noAuthentication =>
      let worker_id := mintedId digest
      let wl := if worker_id ∈ s.worker_list then s.worker_list
                else s.worker_list ++ [worker_id]
      (.workerId worker_id, [.joined worker_id],
        { worker_list := wl,
          active_workers := setAdd worker_id s.active_workers })
    | .authenticated =>
      let worker_id := public_key
      if worker_id ∉ s.worker_list then
        (.invalidWorker, [], s)
      else
        (.workerId worker_id, [.joined worker_id],
          { s with active_workers := setAdd worker_id s.active_workers })

/-- Result of the admin mutation endpoints: a JSON error payload
`{"error": msg}` or the JSON success payload
`{"worker_id": id, "active": b}`. -/
inductive AdminResult where
  | errorPayload (msg : String)
  | ok (worker_id : String) (active : Bool)
  deriving Repr, DecidableEq

/-- The JSON body of an admin-add request, as far as the code reads it:
the optional `public_key_str` field and the optional `active` field. -/
structure AddPayload where
  public_key : Option JsonVal
  active : Option JsonVal
  deriving Repr, DecidableEq

/-- Python `isinstance(v, str) and len(v)` for the public-key field. -/
def isNonEmptyStr : JsonVal → Bool
  | .str s => s.length != 0
  | _ => false

/-- The string payload of a JSON value known to be a string. -/
def jsonStr : JsonVal → String
  | .str s => s
  | _ => ""

/-- `DCFServer.admin_add_worker`: rejects a missing or non-string or
empty public key and an already-known id; otherwise appends to
`worker_list`, and if the `active` field is present and `== True` also
activates and fires the registered callback. -/
def admin_add_worker (payload : AddPayload) (s : ServerState) :
    AdminResult × List Event × ServerState :=
  match payload.public_key with
  | none => (.errorPayload "Public key was not not passed in input", [], s)
  | some v =>
    if isNonEmptyStr v = false then
      (.errorPayload "Public key must be a string", [], s)
    else
      let worker_id := jsonStr v
      if worker_id ∈ s.worker_list then
        (.errorPayload ("Worker " ++ worker_id ++ " already exists"), [], s)
      else
        let s1 : ServerState :=
          { s with worker_list := s.worker_list ++ [worker_id] }
        match payload.active with
        | some a =>
          if jsonEqTrue a then
            let s2 : ServerState :=
              { s1 with active_workers := setAdd worker_id s1.active_workers }
            (.ok worker_id (decide (worker_id ∈ s2.active_workers)),
              [.joined worker_id], s2)
          else
            (.ok worker_id (decide (worker_id ∈ s1.active_workers)), [], s1)
        | none =>
          (.ok worker_id (decide (worker_id ∈ s1.active_workers)), [], s1)

/-- `DCFServer.admin_delete_worker`: removes `worker_id` from
`worker_list` when present (Python `list.remove`, first occurrence), then
if it is in `active_workers` removes it and fires the unregistered
callback.  The endpoint returns no content and reports no error. -/
def admin_delete_worker (worker_id : String) (s : ServerState) :
    List Event × ServerState :=
  let s1 : ServerState :=
    if worker_id ∈ s.worker_list then
      { s with worker_list := s.worker_list.erase worker_id }
    else s
  if worker_id ∈ s1.active_workers then
    ([.left worker_id],
      { s1 with active_workers := setRemove worker_id s1.active_workers })
  else
    ([], s1)

/-- `DCFServer.admin_set_worker_status`: the `active` field of the JSON
body must be present and a boolean, the worker must be known; then the
2-state transition fires the matching callback only on an actual change
and answers `{"worker_id": id, "active": requested}` in every non-error
case. -/
def admin_set_worker_status (worker_id : String) (payload : Option JsonVal)
    (s : ServerState) : AdminResult × List Event × ServerState :=
  match payload with
  | none => (.errorPayload "Key \x27active\x27 is missing in payload", [], s)
  | some v =>
    match v with
    | .bool active =>
      if worker_id ∉ s.worker_list then
        (.errorPayload ("Unknown worker: " ++ worker_id), [], s)
      else
        let prev_active := worker_id ∈ s.active_workers
        if active = true ∧ ¬prev_active then
          (.ok worker_id active, [.joined worker_id],
            { s with active_workers := setAdd worker_id s.active_workers })
        else if active = false ∧ prev_active then
          (.ok worker_id active, [.left worker_id],
            { s with active_workers := setRemove worker_id s.active_workers })
        else
          (.ok worker_id active, [], s)
    | _ =>
      (.errorPayload "Key \x27active\x27 should be a boolean", [], s)

/-- Modelled from the spec: the payload compressor is the external `zlib`
library (not part of this repository); §6 of the spec requires only "a
general-purpose deflate-style byte compressor, applied uniformly and
symmetrically" with exact round-trip.  We model the deflate token stream:
a compressed payload is a sequence of literal bytes and LZ77
back-references `copy dist len` (copy `len` bytes starting `dist` bytes
back in the output produced so far; `dist = 1` with `len > 1` is the
deflate encoding of a run). -/
inductive Token where
  | lit (b : Nat)
  | copy (dist len : Nat)
  deriving Repr, DecidableEq

/-- Length of the leading run of byte `b` in a byte string. -/
def countRun (b : Nat) : Bytes → Nat
  | [] => 0
  | c :: rest => if c = b then countRun b rest + 1 else 0

/-- Modelled from the spec: the deflate-style compressor (`zlib.compress`
in the Python code).  Each maximal run of a repeated byte is emitted as
the literal followed by a `dist = 1` back-reference covering the rest of
the run, exactly as deflate encodes runs. -/
def compress : Bytes → List Token
  | [] => []
  | b :: rest =>
    if countRun b rest = 0 then
      Token.lit b :: compress rest
    else
      Token.lit b :: Token.copy 1 (countRun b rest) ::
        compress (rest.drop (countRun b rest))
  termination_by l => l.length
  decreasing_by
  · simp
  · simp only [List.length_cons, List.length_drop]
    omega

/-- Resolve a back-reference: append, one byte at a time, the byte `dist`
positions back in the output produced so far (re-read after every
appended byte, so an overlapping copy with `dist < len` replicates). -/
def copyN (out : Bytes) (dist : Nat) : Nat → Bytes
  | 0 => out
  | n + 1 => copyN (out ++ [out.getD (out.length - dist) 0]) dist n

/-- Modelled from the spec: the deflate-style decompressor
(`zlib.decompress` in the Python code), processing the token stream left
to right onto the output accumulated in `out`; a back-reference reaching
before the start of the output is the decompression error `zlib` reports
as "invalid distance too far back". -/
def decodeTokens : List Token → Bytes → Except String Bytes
  | [], out => .ok out
  | Token.lit b :: ts, out => decodeTokens ts (out ++ [b])
  | Token.copy dist len :: ts, out =>
    if dist = 0 ∨ out.length < dist then
      .error "Error -3 while decompressing data: invalid distance too far back"
    else
      decodeTokens ts (copyN out dist len)

/-- Decompression of a full payload starts from an empty output. -/
def decompress (p : List Token) : Except String Bytes := decodeTokens p []

/-- Result of the three relay endpoints: the `UNREGISTERED_WORKER`
sentinel, the `str(e)` of a caught exception, the string returned by the
application callback, or the compressed global model. -/
inductive RelayResult where
  | unregisteredWorker
  | errorText (e : String)
  | value (s : String)
  | modelBlob (p : List Token)
  deriving Repr, DecidableEq

/-- `DCFServer.receive_worker_update`: inside the `try` block the payload
is decompressed first, then the known and active membership checks run,
then the update callback; a decompression failure is caught and its text
returned. -/
def receive_worker_update (cb : String → Bytes → String) (s : ServerState)
    (worker_id : String) (payload : List Token) : RelayResult × List Event :=
  match decompress payload with
  | .error e => (.errorText e, [])
  | .ok model_update =>
    if worker_id ∉ s.worker_list then
      (.unregisteredWorker, [])
    else if worker_id ∉ s.active_workers then
      (.unregisteredWorker, [])
    else
      (.value (cb worker_id model_update),
        [.acceptUpdate worker_id model_update])

/-- `DCFServer.query_global_model_status`: `query_request` carries the
`WORKER_ID_KEY` field when present; a missing field, an unknown id and an
inactive id all yield the `UNREGISTERED_WORKER` sentinel, otherwise the
status callback is invoked.  `statusCb` is the (argument-less) callback
result. -/
def query_global_model_status (statusCb : String) (s : ServerState)
    (query_request : Option String) : RelayResult × List Event :=
  match query_request with
  | none => (.unregisteredWorker, [])
  | some worker_id =>
    if worker_id ∉ s.worker_list then
      (.unregisteredWorker, [])
    else if worker_id ∉ s.active_workers then
      (.unregisteredWorker, [])
    else
      (.value statusCb, [.supplyStatus])

/-- `DCFServer.return_global_model`: same gating as the status query;
on success the model callback result is compressed and returned. -/
def return_global_model (modelCb : Bytes) (s : ServerState)
    (query_request : Option String) : RelayResult × List Event :=
  match query_request with
  | none => (.unregisteredWorker, [])
  | some worker_id =>
    if worker_id ∉ s.worker_list then
      (.unregisteredWorker, [])
    else if worker_id ∉ s.active_workers then
      (.unregisteredWorker, [])
    else
      (.modelBlob (compress modelCb), [.supplyModel])

/-- A registry-mutating operation, with its external inputs. -/
inductive Op where
  | register (auth_success : Bool) (auth_type : AuthType)
      (digest public_key : String)
  | adminAdd (payload : AddPayload)
  | adminRemove (worker_id : String)
  | adminSetActive (worker_id : String) (payload : Option JsonVal)
  deriving Repr, DecidableEq

/-- The state transition of one registry operation. -/
def registryStep (op : Op) (s : ServerState) : ServerState :=
  match op with
  | .register a t d pk => (register_worker a t d pk s).2.2
  | .adminAdd p => (admin_add_worker p s).2.2
  | .adminRemove w => (admin_delete_worker w s).2
  | .adminSetActive w p => (admin_set_worker_status w p s).2.2

/-- Run a sequence of registry operations from the empty start state. -/
def runOps (ops : List Op) : ServerState :=
  ops.foldl (fun s op => registryStep op s) emptyState

/-- The registry invariant: every active worker is known. -/
def activeSubKnown (s : ServerState) : Prop :=
  ∀ x ∈ s.active_workers, x ∈ s.worker_list

/-- Resolving a `dist = 1` back-reference of length `n` after output
ending in `b` appends `n` further copies of `b`. -/
theorem copyN_one (b : Nat) : ∀ (n : Nat) (out : Bytes),
    copyN (out ++ [b]) 1 n = out ++ [b] ++ List.replicate n b := by
  intro n
  induction n with
  | zero => intro out; simp [copyN]
  | succ n ih =>
    intro out
    rw [copyN]
    have hlen : (out ++ [b]).length - 1 = out.length := by simp
    have hg : (out ++ [b]).getD ((out ++ [b]).length - 1) 0 = b := by
      rw [hlen]
      simp [List.getD_eq_getElem?_getD, List.getElem?_concat_length]
    rw [hg, ih (out ++ [b])]
    simp [List.replicate_succ]

/-- A byte string starts with the run counted by `countRun`. -/
theorem countRun_split (b : Nat) : ∀ l : Bytes,
    l = List.replicate (countRun b l) b ++ l.drop (countRun b l) := by
  intro l
  induction l with
  | nil => simp [countRun]
  | cons c rest ih =>
    by_cases h : c = b
    · subst h
      rw [countRun, if_pos rfl, List.replicate_succ]
      simp only [List.cons_append, List.drop_succ_cons]
      exact congrArg (c :: ·) ih
    · rw [countRun, if_neg h]
      simp

/-- Decoding the compression of `l` onto any already-produced output
appends exactly `l`. -/
theorem decodeTokens_compress : ∀ (l out : Bytes),
    decodeTokens (compress l) out = Except.ok (out ++ l)
  | [], out => by simp [compress, decodeTokens]
  | b :: rest, out => by
    rw [compress]
    by_cases hn : countRun b rest = 0
    · rw [if_pos hn]
      show decodeTokens (compress rest) (out ++ [b]) = _
      rw [decodeTokens_compress rest (out ++ [b])]
      simp
    · rw [if_neg hn]
      show decodeTokens
        (Token.copy 1 (countRun b rest) :: compress (rest.drop (countRun b rest)))
        (out ++ [b]) = _
      rw [decodeTokens]
      rw [if_neg (by simp)]
      rw [copyN_one, decodeTokens_compress (rest.drop (countRun b rest))]
      conv_rhs => rw [countRun_split b rest]
      simp
  termination_by l _ => l.length
  decreasing_by
  · simp
  · simp only [List.length_cons, List.length_drop]
    omega

/-- Membership after a Python `set.add`. -/
theorem mem_setAdd {x y : String} {l : List String} :
    x ∈ setAdd y l ↔ x = y ∨ x ∈ l := by
  by_cases h : y ∈ l
  · simp only [setAdd, if_pos h]
    exact ⟨Or.inr, fun hx => hx.elim (fun e => e ▸ h) id⟩
  · simp [setAdd, if_neg h]

/-- Membership after a Python `set.remove`. -/
theorem mem_setRemove {x y : String} {l : List String} :
    x ∈ setRemove y l ↔ x ∈ l ∧ x ≠ y := by
  simp [setRemove]

/-- One registry-mutating operation preserves `active ⊆ known`. -/
theorem registryStep_preserves (op : Op) (s : ServerState)
    (h : activeSubKnown s) : activeSubKnown (registryStep op s) := by
  cases op with
  | register a t d pk =>
    show activeSubKnown (register_worker a t d pk s).2.2
    unfold register_worker
    by_cases ha : a = false
    · rw [if_pos ha]; exact h
    · rw [if_neg ha]
      cases t with
      | noAuthentication =>
        try dsimp only
        intro x hx
        dsimp only at hx ⊢
        rcases mem_setAdd.mp hx with rfl | hx'
        · by_cases hm : mintedId d ∈ s.worker_list
          · rw [if_pos hm]; exact hm
          · rw [if_neg hm]
            exact List.mem_append_right _ (List.mem_singleton_self _)
        · by_cases hm : mintedId d ∈ s.worker_list
          · rw [if_pos hm]; exact h x hx'
          · rw [if_neg hm]; exact List.mem_append_left _ (h x hx')
      | authenticated =>
        try dsimp only
        by_cases hpk : pk ∉ s.worker_list
        · rw [if_pos hpk]; exact h
        · rw [if_neg hpk]
          intro x hx
          dsimp only at hx ⊢
          rcases mem_setAdd.mp hx with rfl | hx'
          · exact not_not.mp hpk
          · exact h x hx'
  | adminAdd p =>
    show activeSubKnown (admin_add_worker p s).2.2
    unfold admin_add_worker
    cases hpk : p.public_key with
    | none => exact h
    | some v =>
      try dsimp only
      by_cases hs : isNonEmptyStr v = false
      · rw [if_pos hs]; exact h
      · rw [if_neg hs]
        try dsimp only
        by_cases hw : jsonStr v ∈ s.worker_list
        · rw [if_pos hw]; exact h
        · rw [if_neg hw]
          cases hac : p.active with
          | none =>
            try dsimp only
            intro x hx
            dsimp only at hx ⊢
            exact List.mem_append_left _ (h x hx)
          | some a =>
            try dsimp only
            by_cases ht : jsonEqTrue a = true
            · rw [if_pos ht]
              intro x hx
              dsimp only at hx ⊢
              rcases mem_setAdd.mp hx with rfl | hx'
              · exact List.mem_append_right _ (List.mem_singleton_self _)
              · exact List.mem_append_left _ (h x hx')
            · rw [if_neg ht]
              intro x hx
              dsimp only at hx ⊢
              exact List.mem_append_left _ (h x hx)
  | adminRemove w =>
    show activeSubKnown (admin_delete_worker w s).2
    unfold admin_delete_worker
    by_cases hw : w ∈ s.worker_list
    · rw [if_pos hw]
      try dsimp only
      by_cases hact : w ∈ s.active_workers
      · rw [if_pos hact]
        intro x hx
        dsimp only at hx ⊢
        obtain ⟨hx', hne⟩ := mem_setRemove.mp hx
        exact (List.mem_erase_of_ne hne).mpr (h x hx')
      · rw [if_neg hact]
        intro x hx
        dsimp only at hx ⊢
        by_cases hne : x = w
        · subst hne; exact absurd hx hact
        · exact (List.mem_erase_of_ne hne).mpr (h x hx)
    · rw [if_neg hw]
      try dsimp only
      by_cases hact : w ∈ s.active_workers
      · rw [if_pos hact]
        intro x hx
        dsimp only at hx ⊢
        exact h x (mem_setRemove.mp hx).1
      · rw [if_neg hact]; exact h
  | adminSetActive w p =>
    show activeSubKnown (admin_set_worker_status w p s).2.2
    unfold admin_set_worker_status
    cases p with
    | none => exact h
    | some v =>
      cases v with
      | str sv => exact h
      | num nv => exact h
      | null => exact h
      | bool bv =>
        try dsimp only
        by_cases hw : w ∉ s.worker_list
        · rw [if_pos hw]; exact h
        · rw [if_neg hw]
          try dsimp only
          by_cases hact : w ∈ s.active_workers
          · rw [if_neg (fun hc => hc.2 hact)]
            by_cases hbv : bv = false
            · rw [if_pos ⟨hbv, hact⟩]
              intro x hx
              dsimp only at hx ⊢
              exact h x (mem_setRemove.mp hx).1
            · rw [if_neg (fun hc => hbv hc.1)]; exact h
          · by_cases hbv : bv = true
            · rw [if_pos ⟨hbv, hact⟩]
              intro x hx
              dsimp only at hx ⊢
              rcases mem_setAdd.mp hx with rfl | hx'
              · exact not_not.mp hw
              · exact h x hx'
            · rw [if_neg (fun hc => hbv hc.1)]
              rw [if_neg (fun hc => hact hc.2)]
              exact h

/-- The invariant holds in every state reached from the empty registry. -/
theorem runOps_activeSubKnown (ops : List Op) : activeSubKnown (runOps ops) := by
  unfold runOps
  have hgen : ∀ (l : List Op) (s : ServerState), activeSubKnown s →
      activeSubKnown (l.foldl (fun s op => registryStep op s) s) := by
    intro l
    induction l with
    | nil => intro s hs; exact hs
    | cons op rest ih =>
      intro s hs
      exact ih _ (registryStep_preserves op s hs)
  exact hgen ops emptyState (fun x hx => absurd hx (List.not_mem_nil x))

/-- C1: starting from the empty registry, after any sequence of registry
operations (register, adminAdd, adminRemove, adminSetActive), every
identity in the active set is also in the known set. -/
theorem active_mem_known_after_ops (ops : List Op) (i : String)
    (h : i ∈ (runOps ops).active_workers) : i ∈ (runOps ops).worker_list :=
  runOps_activeSubKnown ops i h

theorem active_mem_known_after_ops_witness :
    "w" ∈ (runOps [Op.adminAdd ⟨some (.str "w"), some (.bool true)⟩]).active_workers ∧
    "w" ∈ (runOps [Op.adminAdd ⟨some (.str "w"), some (.bool true)⟩]).worker_list :=
  ⟨by decide,
    active_mem_known_after_ops [Op.adminAdd ⟨some (.str "w"), some (.bool true)⟩]
      "w" (by decide)⟩

/-- C2 counterexample: the worker "w" is known but inactive, yet
`receive_worker_update` on a payload whose decompression fails returns
the textual decompression error, not the unregistered-worker sentinel
(decompression runs before the membership checks), so the claim as stated
fails for `submitUpdate`. -/
theorem receive_update_known_inactive_bad_payload :
    (receive_worker_update (fun _ _ => "ok") ⟨["w"], []⟩ "w" [Token.copy 1 2]).1 =
      RelayResult.errorText
        "Error -3 while decompressing data: invalid distance too far back" := by
  rfl

/-- C2 (amended): for an identity in `known` but not in `active`,
`queryStatus` and `fetchModel` return the unregistered-worker sentinel
and invoke no callback; `submitUpdate` does so for every payload that
decompresses successfully, and invokes no callback for any payload
whatsoever (a payload that fails to decompress yields the error text
instead of the sentinel). -/
theorem relay_known_inactive_spec (s : ServerState) (wid : String)
    (hk : wid ∈ s.worker_list) (hna : wid ∉ s.active_workers) :
    (∀ (cb : String → Bytes → String) (payload : List Token) (m : Bytes),
        decompress payload = Except.ok m →
        receive_worker_update cb s wid payload =
          (RelayResult.unregisteredWorker, [])) ∧
    (∀ (cb : String → Bytes → String) (payload : List Token),
        (receive_worker_update cb s wid payload).2 = []) ∧
    (∀ stCb, query_global_model_status stCb s (some wid) =
        (RelayResult.unregisteredWorker, [])) ∧
    (∀ mCb, return_global_model mCb s (some wid) =
        (RelayResult.unregisteredWorker, [])) := by
  refine ⟨?_, ?_, ?_, ?_⟩
  · intro cb payload m hd
    unfold receive_worker_update
    rw [hd]
    dsimp only
    rw [if_neg (not_not_intro hk), if_pos hna]
  · intro cb payload
    unfold receive_worker_update
    cases hd : decompress payload with
    | error e => rfl
    | ok m =>
      dsimp only
      rw [if_neg (not_not_intro hk), if_pos hna]
  · intro stCb
    unfold query_global_model_status
    dsimp only
    rw [if_neg (not_not_intro hk), if_pos hna]
  · intro mCb
    unfold return_global_model
    dsimp only
    rw [if_neg (not_not_intro hk), if_pos hna]

theorem relay_known_inactive_spec_witness :
    query_global_model_status "status" ⟨["w"], []⟩ (some "w") =
      (RelayResult.unregisteredWorker, []) :=
  (relay_known_inactive_spec ⟨["w"], []⟩ "w" (by decide) (by decide)).2.2.1 "status"

/-- C3 counterexample: in key-restricted mode, with the claimed identity
present in the key store, a verification exception other than a bad
signature (e.g. `binascii.Error` on a non-hex proof) is not caught by the
`except BadSignatureError` clause and propagates to the caller instead of
yielding `(false, KeyRestricted)`, so the claim as stated fails. -/
theorem authenticate_worker_raises_propagates :
    authenticate_worker true ["k"]
      (fun _ _ => VerifyOutcome.raises "Non-hexadecimal digit found") "k" "zz" =
      Except.error "Non-hexadecimal digit found" := by
  rfl

/-- C3 (amended): in key-restricted mode, for a claimed identity present
in the key store, `authenticate_worker` returns `(false, KeyRestricted)`
exactly on a bad-signature failure, returns `(true, KeyRestricted)`
exactly when the proof verifies, and propagates any other verification
exception to the caller. -/
theorem authenticate_worker_key_restricted_spec (keys : List String)
    (verify : String → String → VerifyOutcome) (pk msg : String)
    (hk : pk ∈ keys) :
    (verify pk msg = VerifyOutcome.badSignature →
      authenticate_worker true keys verify pk msg =
        Except.ok (false, AuthType.authenticated)) ∧
    (∀ e, verify pk msg = VerifyOutcome.raises e →
      authenticate_worker true keys verify pk msg = Except.error e) ∧
    (authenticate_worker true keys verify pk msg =
        Except.ok (true, AuthType.authenticated) ↔
      verify pk msg = VerifyOutcome.ok) := by
  unfold authenticate_worker
  rw [if_neg (by simp), if_neg (not_not_intro hk)]
  refine ⟨?_, ?_, ?_⟩
  · intro hv; rw [hv]
  · intro e hv; rw [hv]
  · cases hv : verify pk msg <;> simp

theorem authenticate_worker_key_restricted_spec_witness :
    authenticate_worker true ["k"] (fun _ _ => VerifyOutcome.badSignature) "k" "m" =
      Except.ok (false, AuthType.authenticated) :=
  (authenticate_worker_key_restricted_spec ["k"]
    (fun _ _ => VerifyOutcome.badSignature) "k" "m" (by decide)).1 rfl

/-- Appending the fixed unauthenticated suffix is injective in the
digest. -/
theorem mintedId_inj {d1 d2 : String} (h : mintedId d1 = mintedId d2) :
    d1 = d2 := by
  have hd := congrArg String.data h
  simp only [mintedId, String.data_append] at hd
  exact String.ext (List.append_cancel_right hd)

/-- C4 counterexample: two consecutive open-mode registrations whose
high-resolution clock readings hash to the same digest return the same
identity, so the claim as stated (distinct identities for every pair of
consecutive calls) fails. -/
theorem register_twice_same_digest_same_id :
    (register_worker true AuthType.noAuthentication "t" "" emptyState).1 =
      (register_worker true AuthType.noAuthentication "t" ""
        (register_worker true AuthType.noAuthentication "t" "" emptyState).2.2).1 := by
  rfl

/-- C4 (amended): in open mode, two consecutive `register` calls whose
timestamp digests differ return two distinct worker identities, from any
registry state. -/
theorem register_twice_distinct_digests (s : ServerState)
    (d1 d2 pk1 pk2 : String) (hne : d1 ≠ d2) :
    (register_worker true AuthType.noAuthentication d1 pk1 s).1 ≠
      (register_worker true AuthType.noAuthentication d2 pk2
        (register_worker true AuthType.noAuthentication d1 pk1 s).2.2).1 := by
  intro heq
  have h1 : (register_worker true AuthType.noAuthentication d1 pk1 s).1 =
      RegisterResult.workerId (mintedId d1) := rfl
  have h2 : (register_worker true AuthType.noAuthentication d2 pk2
      (register_worker true AuthType.noAuthentication d1 pk1 s).2.2).1 =
      RegisterResult.workerId (mintedId d2) := rfl
  rw [h1, h2] at heq
  injection heq with heq'
  exact hne (mintedId_inj heq')

theorem register_twice_distinct_digests_witness :
    (register_worker true AuthType.noAuthentication "a" "" emptyState).1 ≠
      (register_worker true AuthType.noAuthentication "b" ""
        (register_worker true AuthType.noAuthentication "a" "" emptyState).2.2).1 :=
  register_twice_distinct_digests emptyState "a" "b" "" "" (by decide)

/-- C5: the admin gate accepts exactly when both configured credentials
are present and each equals the supplied one; in particular if either
`ADMIN_USERNAME` or `ADMIN_PASSWORD` is unset it denies every pair. -/
theorem is_admin_iff (adm_username adm_password : Option String)
    (u p : String) :
    is_admin adm_username adm_password u p = true ↔
      adm_username = some u ∧ adm_password = some p := by
  cases adm_username with
  | none => simp [is_admin]
  | some au =>
    cases adm_password with
    | none => simp [is_admin]
    | some ap =>
      simp only [is_admin, Bool.and_eq_true, beq_iff_eq, Option.some.injEq]
      exact ⟨fun ⟨h1, h2⟩ => ⟨h1.symm, h2.symm⟩,
        fun ⟨h1, h2⟩ => ⟨h1.symm, h2.symm⟩⟩

/-- C6 counterexample: a status query whose body is missing the
worker-id field returns the unregistered-worker sentinel, which the
error taxonomy distinguishes from a structured error payload, so the
claim that a missing required field yields a structured error payload
fails for `queryStatus` (and likewise `fetchModel`). -/
theorem query_status_missing_worker_id_sentinel :
    query_global_model_status "status" ⟨["w"], ["w"]⟩ none =
      (RelayResult.unregisteredWorker, []) := by
  rfl

/-- C6 (amended): a request missing a required field leaves the registry
unchanged and invokes no callback, but the surfaced value differs by
endpoint: `queryStatus` and `fetchModel` missing the worker-id field
return the unregistered-worker sentinel, while `adminSetActive` missing
the `active` field and `adminAdd` missing the public-key field return a
structured error payload. -/
theorem malformed_request_spec (s : ServerState) :
    (∀ stCb, query_global_model_status stCb s none =
        (RelayResult.unregisteredWorker, [])) ∧
    (∀ mCb, return_global_model mCb s none =
        (RelayResult.unregisteredWorker, [])) ∧
    (∀ wid, admin_set_worker_status wid none s =
        (AdminResult.errorPayload "Key \x27active\x27 is missing in payload", [], s)) ∧
    (∀ act, admin_add_worker ⟨none, act⟩ s =
        (AdminResult.errorPayload "Public key was not not passed in input", [], s)) :=
  ⟨fun _ => rfl, fun _ => rfl, fun _ => rfl, fun _ => rfl⟩

/-- C7: `adminRemove` removes the identity from the known list
unconditionally (its endpoint returns no content, hence no error even
when the identity is absent), and exactly when the identity was active it
also removes it from the active set and fires the on-worker-left
callback exactly once. -/
theorem admin_delete_worker_spec (s : ServerState) (wid : String)
    (hnd : s.worker_list.Nodup) :
    (admin_delete_worker wid s).2.worker_list = s.worker_list.erase wid ∧
    wid ∉ (admin_delete_worker wid s).2.worker_list ∧
    wid ∉ (admin_delete_worker wid s).2.active_workers ∧
    (wid ∈ s.active_workers →
      (admin_delete_worker wid s).1 = [Event.left wid]) ∧
    (wid ∉ s.active_workers →
      (admin_delete_worker wid s).1 = [] ∧
      (admin_delete_worker wid s).2.active_workers = s.active_workers) := by
  unfold admin_delete_worker
  by_cases hw : wid ∈ s.worker_list
  · rw [if_pos hw]
    dsimp only
    by_cases hact : wid ∈ s.active_workers
    · rw [if_pos hact]
      refine ⟨rfl, hnd.not_mem_erase, ?_, fun _ => rfl, fun hc => absurd hact hc⟩
      exact fun hm => (mem_setRemove.mp hm).2 rfl
    · rw [if_neg hact]
      exact ⟨rfl, hnd.not_mem_erase, hact, fun hc => absurd hc hact,
        fun _ => ⟨rfl, rfl⟩⟩
  · rw [if_neg hw]
    dsimp only
    by_cases hact : wid ∈ s.active_workers
    · rw [if_pos hact]
      refine ⟨(List.erase_of_not_mem hw).symm, hw, ?_, fun _ => rfl,
        fun hc => absurd hact hc⟩
      exact fun hm => (mem_setRemove.mp hm).2 rfl
    · rw [if_neg hact]
      exact ⟨(List.erase_of_not_mem hw).symm, hw, hact,
        fun hc => absurd hc hact, fun _ => ⟨rfl, rfl⟩⟩

theorem admin_delete_worker_spec_witness :
    "w" ∉ (admin_delete_worker "w" ⟨["w"], ["w"]⟩).2.worker_list ∧
    (admin_delete_worker "w" ⟨["w"], ["w"]⟩).1 = [Event.left "w"] :=
  ⟨(admin_delete_worker_spec ⟨["w"], ["w"]⟩ "w" (by decide)).2.1,
    (admin_delete_worker_spec ⟨["w"], ["w"]⟩ "w" (by decide)).2.2.2.1 (by decide)⟩

/-- C8 counterexample: for a known identity that is already active, two
consecutive `adminSetActive(i, true)` calls fire the on-worker-joined
callback zero times, not exactly once, so the claim as stated (for every
known identity) fails. -/
theorem set_active_twice_already_active_no_callback :
    ((admin_set_worker_status "w" (some (JsonVal.bool true)) ⟨["w"], ["w"]⟩).2.1 ++
      (admin_set_worker_status "w" (some (JsonVal.bool true))
        (admin_set_worker_status "w" (some (JsonVal.bool true))
          ⟨["w"], ["w"]⟩).2.2).2.1).count (Event.joined "w") = 0 := by
  decide

/-- C8 (amended): for a known identity that is not yet active, two
consecutive `adminSetActive(i, true)` calls fire the on-worker-joined
callback exactly once (zero times when it was already active); and any
`adminSetActive` call requesting the state the identity is already in
fires no callback, leaves the registry unchanged and returns the normal
(non-error) payload. -/
theorem admin_set_worker_status_idempotent_spec (s : ServerState)
    (wid : String) (hk : wid ∈ s.worker_list) :
    (wid ∉ s.active_workers →
      ((admin_set_worker_status wid (some (JsonVal.bool true)) s).2.1 ++
        (admin_set_worker_status wid (some (JsonVal.bool true))
          (admin_set_worker_status wid (some (JsonVal.bool true)) s).2.2).2.1).count
        (Event.joined wid) = 1) ∧
    (∀ b : Bool, (b = true ↔ wid ∈ s.active_workers) →
      admin_set_worker_status wid (some (JsonVal.bool b)) s =
        (AdminResult.ok wid b, [], s)) := by
  constructor
  · intro hna
    have h1 : admin_set_worker_status wid (some (JsonVal.bool true)) s =
        (AdminResult.ok wid true, [Event.joined wid],
          { s with active_workers := setAdd wid s.active_workers }) := by
      unfold admin_set_worker_status
      dsimp only
      rw [if_neg (not_not_intro hk), if_pos ⟨rfl, hna⟩]
    have h2 : admin_set_worker_status wid (some (JsonVal.bool true))
        { s with active_workers := setAdd wid s.active_workers } =
        (AdminResult.ok wid true, [],
          { s with active_workers := setAdd wid s.active_workers }) := by
      unfold admin_set_worker_status
      dsimp only
      rw [if_neg (not_not_intro hk)]
      rw [if_neg (fun hc => hc.2 (mem_setAdd.mpr (Or.inl rfl)))]
      rw [if_neg (fun hc => absurd hc.1 (by simp))]
    rw [h1, h2]
    simp
  · intro b hb
    unfold admin_set_worker_status
    dsimp only
    rw [if_neg (not_not_intro hk)]
    cases b
    · have hna : wid ∉ s.active_workers :=
        fun hm => absurd (hb.mpr hm) (by simp)
      rw [if_neg (fun hc => absurd hc.1 (by simp))]
      rw [if_neg (fun hc => hna hc.2)]
    · have hact : wid ∈ s.active_workers := hb.mp rfl
      rw [if_neg (fun hc => hc.2 hact)]
      rw [if_neg (fun hc => absurd hc.1 (by simp))]

theorem admin_set_worker_status_idempotent_spec_witness :
    ((admin_set_worker_status "w" (some (JsonVal.bool true)) ⟨["w"], []⟩).2.1 ++
      (admin_set_worker_status "w" (some (JsonVal.bool true))
        (admin_set_worker_status "w" (some (JsonVal.bool true))
          ⟨["w"], []⟩).2.2).2.1).count (Event.joined "w") = 1 :=
  (admin_set_worker_status_idempotent_spec ⟨["w"], []⟩ "w" (by decide)).1 (by decide)

/-- C9: decompressing the compression of any byte string, the empty one
included, gives the byte string back; `compress` is applied by
`return_global_model` on send and `decompress` by
`receive_worker_update` on receive. -/
theorem decompress_compress_roundtrip (b : Bytes) :
    decompress (compress b) = Except.ok b := by
  have h := decodeTokens_compress b []
  simpa [decompress] using h

/-- C10: `receive_worker_update` attempts decompression before the
membership checks: whatever the identity (known or not, active or not),
a payload that fails to decompress yields the textual description of the
decompression error and fires no callback, and the unregistered-worker
sentinel is only ever returned for a payload that decompressed
successfully. -/
theorem receive_update_decompress_before_membership
    (cb : String → Bytes → String) (s : ServerState) (wid : String)
    (payload : List Token) :
    (∀ e, decompress payload = Except.error e →
      receive_worker_update cb s wid payload = (RelayResult.errorText e, [])) ∧
    ((receive_worker_update cb s wid payload).1 =
        RelayResult.unregisteredWorker →
      ∃ m, decompress payload = Except.ok m) := by
  constructor
  · intro e hd
    unfold receive_worker_update
    rw [hd]
  · intro hres
    cases hd : decompress payload with
    | ok m => exact ⟨m, rfl⟩
    | error e =>
      unfold receive_worker_update at hres
      rw [hd] at hres
      simp at hres

theorem receive_update_decompress_before_membership_witness :
    receive_worker_update (fun _ _ => "ok") ⟨[], []⟩ "nobody" [Token.copy 1 2] =
      (RelayResult.errorText
        "Error -3 while decompressing data: invalid distance too far back", []) :=
  (receive_update_decompress_before_membership (fun _ _ => "ok") ⟨[], []⟩
    "nobody" [Token.copy 1 2]).1
    "Error -3 while decompressing data: invalid distance too far back" (by rfl)
